import Mathlib

/-!
Verification development for the deferred-publish scheduling subsystem of the
buffer-api-demo repository.

The embedding below translates, into Lean, the code that the claims are about:

* `src/src/types/post.types.ts` — the status/platform enums and DTO shapes;
* `src/src/config/database.ts` (Post model part) — the post document fields and
  the `toJSON` transform;
* `src/unnamed/part_000` (`QueueService`) — `addJob` / `removeJob` over the Bull
  queue, with the deterministic job key `post-<postId>`;
* `src/src/queues/post.queue.ts` — the Bull queue configuration
  (`attempts: 3`, exponential backoff with base delay 2000 ms);
* `src/src/workers/post.worker.ts` — the worker that processes a due job by
  calling `postService.publishPost` and rethrows on failure, which feeds Bull's
  retry/backoff machinery;
* `src/src/services/post.service.ts` — `createPost`, `updatePost`,
  `deletePost`, `publishPost` and `toPostResponse`;
* `src/src/utils/timezone.util.ts` — `isFutureTime` and `calculateDelay`.

Modelling conventions: instants are `Int` milliseconds since the epoch (the
value of JavaScript `Date.getTime()` / `Date.now()`, which is integral), and
each operation takes the current time `now` as an explicit parameter.  The
MongoDB collection is a list of post documents; the Bull queue is a list of
job records keyed by their Bull job id (Bull stores jobs by id, so adding a job
whose id already exists is ignored).  Queue-infrastructure failures (the Redis
calls behind `postQueue.add` / `job.remove` throwing) are modelled by a boolean
`qok` parameter: when `qok` is false the queue call throws, which the embedding
surfaces as the error the surrounding service code produces (a caught rollback
in `createPost`, an uncaught propagated exception elsewhere).  Database writes
themselves are modelled as reliable.
-/

/-- Post lifecycle status, from `PostStatus` in `src/src/types/post.types.ts`. -/
inductive PostStatus
  | draft
  | scheduled
  | published
  | failed
deriving DecidableEq

/-- Target platform, from `PostPlatform` in `src/src/types/post.types.ts`. -/
inductive PostPlatform
  | twitter
  | linkedin
  | facebook
deriving DecidableEq

/-- A post document, from the `IPost` interface / `postSchema` in the Post
model part of `src/src/config/database.ts`.  `createdAt`/`updatedAt` (managed
timestamps) are omitted: no claim depends on them. -/
structure Post where
  id : Nat
  userId : Nat
  content : String
  platform : PostPlatform
  status : PostStatus
  scheduledAt : Option Int := none
  publishedAt : Option Int := none
  jobId : Option String := none
deriving DecidableEq

/-- Payload carried by a queue job, from `JobData` in
`src/src/types/post.types.ts`. -/
structure JobData where
  postId : Nat
  userId : Nat
  content : String
  platform : PostPlatform
deriving DecidableEq

/-- Bull job lifecycle state; `pending` covers Bull's delayed/waiting states. -/
inductive JobState
  | pending
  | completed
  | failed
deriving DecidableEq

/-- A job record in the Bull queue: its id (the custom `jobId` key), payload,
due instant (enqueue time plus delay), attempts made so far and state. -/
structure QJob where
  id : String
  data : JobData
  dueAt : Int
  attemptsMade : Nat
  state : JobState
deriving DecidableEq

/-- Service-level errors, from `src/src/utils/errors.util.ts`; `infra` stands
for a non-AppError infrastructure exception (e.g. a Redis failure thrown out of
a Bull call), which the services do not catch unless noted. -/
inductive Err
  | badRequest (msg : String)
  | notFound (msg : String)
  | conflict (msg : String)
  | infra
deriving DecidableEq

/-- The system state: the MongoDB `posts` collection, the Bull queue contents,
and the next fresh document id. -/
structure SysState where
  db : List Post
  jobs : List QJob
  nextId : Nat
deriving DecidableEq

/-- The deterministic Bull job key used by `QueueService.addJob`
(`src/unnamed/part_000`): `jobId: post-<postId>`. -/
def postKey (postId : Nat) : String := "post-" ++ toString postId

/-- `QueueService.addJob` (`src/unnamed/part_000`): `postQueue.add(data,
\x7b delay, jobId: post-<postId> \x7d)`.  Bull keys jobs by id, so an add whose
custom id already exists in the queue is ignored; the returned job id is the
key either way. -/
def addJob (jobs : List QJob) (data : JobData) (now delay : Int) :
    List QJob × String :=
  let key := postKey data.postId
  if jobs.any (fun j => j.id == key) then (jobs, key)
  else (jobs ++ [{ id := key, data := data, dueAt := now + delay,
                   attemptsMade := 0, state := JobState.pending }], key)

/-- `QueueService.removeJob` (`src/unnamed/part_000`): `getJob(jobId)` and, if
found, `job.remove()`; removing an absent job is a no-op. -/
def removeJob (jobs : List QJob) (jid : String) : List QJob :=
  jobs.filter (fun j => j.id != jid)

/-- Mongoose `post.save()`: write the (possibly mutated) document back into the
collection at its id. -/
def savePost (db : List Post) (p : Post) : List Post :=
  db.map (fun q => if q.id == p.id then p else q)

/-- Mongoose `Post.findByIdAndDelete`. -/
def deleteById (db : List Post) (pid : Nat) : List Post :=
  db.filter (fun q => q.id != pid)

/-- `isFutureTime` from `src/src/utils/timezone.util.ts` on a valid instant:
`new Date(isoString).getTime() > Date.now()`. -/
def isFutureTime (t now : Int) : Bool := decide (now < t)

/-- `calculateDelay` from `src/src/utils/timezone.util.ts`: throws
`BadRequestError('Scheduled time must be in the future')` unless
`isFutureTime`, else returns `Math.floor(scheduledTime - now)`; both operands
are integral milliseconds, so the floor is the identity. -/
def calculateDelay (t now : Int) : Except Err Int :=
  if isFutureTime t now then Except.ok (t - now)
  else Except.error (Err.badRequest "Scheduled time must be in the future")

/-- `CreatePostDTO` from `src/src/types/post.types.ts`. -/
structure CreatePostDTO where
  content : String
  platform : PostPlatform
  scheduledAt : Option Int := none

/-- `UpdatePostDTO` from `src/src/types/post.types.ts`. -/
structure UpdatePostDTO where
  content : Option String := none
  platform : Option PostPlatform := none
  scheduledAt : Option Int := none

/-- `PostService.createPost` (`src/src/services/post.service.ts`, lines
14-71): reject a non-future `scheduledAt` (`scheduledTime <= new Date()`)
before creating anything; create the post (`scheduled` iff a due date was
given); if scheduled, enqueue the job and stamp `jobId`; if the enqueue
throws, delete the just-created post and throw
`BadRequestError('Failed to schedule post')`. -/
def createPost (s : SysState) (now : Int) (uid : Nat) (d : CreatePostDTO)
    (qok : Bool) : SysState × Except Err Post :=
  match d.scheduledAt with
  | some t =>
    if t ≤ now then
      (s, Except.error (Err.badRequest "Scheduled time must be in the future"))
    else
      let p : Post := { id := s.nextId, userId := uid, content := d.content,
                        platform := d.platform, status := PostStatus.scheduled,
                        scheduledAt := some t }
      let s1 : SysState := { s with db := s.db ++ [p], nextId := s.nextId + 1 }
      if qok then
        let jd : JobData := { postId := p.id, userId := uid,
                              content := p.content, platform := p.platform }
        let jr := addJob s1.jobs jd now (t - now)
        let p2 := { p with jobId := some jr.2 }
        ({ s1 with jobs := jr.1, db := savePost s1.db p2 }, Except.ok p2)
      else
        ({ s1 with db := deleteById s1.db p.id },
         Except.error (Err.badRequest "Failed to schedule post"))
  | none =>
    let p : Post := { id := s.nextId, userId := uid, content := d.content,
                      platform := d.platform, status := PostStatus.draft }
    ({ s with db := s.db ++ [p], nextId := s.nextId + 1 }, Except.ok p)

/-- Tail of `PostService.updatePost` after the old job (if any) has been
removed: apply the content/platform changes, then either reschedule (enqueue a
new job and stamp `jobId`), convert a previously scheduled post back to draft,
or just save.  `post.save()` runs only on the success path, so when the
enqueue throws the content changes are not persisted. -/
def updatePostRest (s : SysState) (jobs1 : List QJob) (now : Int) (uid : Nat)
    (post1 : Post) (d : UpdatePostDTO) (qok : Bool) :
    SysState × Except Err Post :=
  let post2 :=
    { post1 with
      content := d.content.getD post1.content,
      platform := d.platform.getD post1.platform }
  match d.scheduledAt with
  | some t =>
    let post3 :=
      { post2 with
        scheduledAt := some t,
        status := PostStatus.scheduled }
    if qok then
      let jd : JobData := { postId := post3.id, userId := uid,
                            content := post3.content,
                            platform := post3.platform }
      let jr := addJob jobs1 jd now (t - now)
      let post4 := { post3 with jobId := some jr.2 }
      ({ s with jobs := jr.1, db := savePost s.db post4 }, Except.ok post4)
    else ({ s with jobs := jobs1 }, Except.error Err.infra)
  | none =>
    if post1.status == PostStatus.scheduled then
      let post3 :=
        { post2 with
          status := PostStatus.draft,
          scheduledAt := none }
      ({ s with jobs := jobs1, db := savePost s.db post3 }, Except.ok post3)
    else ({ s with jobs := jobs1, db := savePost s.db post2 }, Except.ok post2)

/-- Middle of `PostService.updatePost`: `if (wasScheduled && post.jobId)`
remove the old job and clear `jobId` before applying the changes.  The removal
is not wrapped in try/catch, so a queue failure there propagates. -/
def updatePostApply (s : SysState) (now : Int) (uid : Nat) (post : Post)
    (d : UpdatePostDTO) (qok : Bool) : SysState × Except Err Post :=
  if post.status == PostStatus.scheduled && post.jobId.isSome then
    if qok then
      updatePostRest s (removeJob s.jobs (post.jobId.getD "")) now uid
        { post with jobId := none } d qok
    else (s, Except.error Err.infra)
  else updatePostRest s s.jobs now uid post d qok

/-- `PostService.updatePost` (`src/src/services/post.service.ts`, lines
103-171): `NotFound` when no post matches id and owner; `Conflict` when the
post is published; reject a non-future new `scheduledAt`; then apply. -/
def updatePost (s : SysState) (now : Int) (pid uid : Nat) (d : UpdatePostDTO)
    (qok : Bool) : SysState × Except Err Post :=
  match s.db.find? (fun p => p.id == pid && p.userId == uid) with
  | none => (s, Except.error (Err.notFound "Post not found"))
  | some post =>
    if post.status == PostStatus.published then
      (s, Except.error (Err.conflict "Cannot update published post"))
    else
      match d.scheduledAt with
      | some t =>
        if t ≤ now then
          (s, Except.error
                (Err.badRequest "Scheduled time must be in the future"))
        else updatePostApply s now uid post d qok
      | none => updatePostApply s now uid post d qok

/-- `PostService.deletePost` (`src/src/services/post.service.ts`, lines
173-192): `NotFound` when no post matches id and owner; otherwise
`removeJob(post.jobId)` when a job reference is stored (not wrapped in
try/catch, so a queue failure propagates before the record is deleted), then
`findByIdAndDelete`. -/
def deletePost (s : SysState) (pid uid : Nat) (qok : Bool) :
    SysState × Except Err Unit :=
  match s.db.find? (fun p => p.id == pid && p.userId == uid) with
  | none => (s, Except.error (Err.notFound "Post not found"))
  | some post =>
    match post.jobId with
    | some jid =>
      if qok then
        ({ s with jobs := removeJob s.jobs jid, db := deleteById s.db pid },
         Except.ok ())
      else (s, Except.error Err.infra)
    | none => ({ s with db := deleteById s.db pid }, Except.ok ())

/-- `PostService.publishPost` (`src/src/services/post.service.ts`, lines
194-216): `NotFound` when absent; a no-op success when already published;
otherwise set status to published, stamp `publishedAt := now` and save.  Note
that neither `scheduledAt` nor `jobId` is touched. -/
def publishPost (s : SysState) (now : Int) (pid : Nat) :
    SysState × Except Err Unit :=
  match s.db.find? (fun p => p.id == pid) with
  | none => (s, Except.error (Err.notFound "Post not found"))
  | some post =>
    if post.status == PostStatus.published then (s, Except.ok ())
    else
      let p2 :=
        { post with
          status := PostStatus.published,
          publishedAt := some now }
      ({ s with db := savePost s.db p2 }, Except.ok ())

/-- `attempts: 3` from `defaultJobOptions` in `src/src/queues/post.queue.ts`. -/
def queueAttempts : Nat := 3

/-- `backoff: \x7b type: 'exponential', delay: 2000 \x7d` from
`src/src/queues/post.queue.ts` (milliseconds). -/
def backoffBaseDelay : Int := 2000

/-- Bull's exponential backoff: after the `made`-th failed attempt the next
run is delayed by `delay * 2 ^ (made - 1)`. -/
def backoffDelay (made : Nat) : Int := backoffBaseDelay * 2 ^ (made - 1)

/-- Bull's handling of a failed processing attempt under the queue's
`defaultJobOptions`: increment `attemptsMade`; retry with exponential backoff
while fewer than `attempts` (3) attempts were made, else mark the job failed
(`removeOnFail: false` keeps it in the queue). -/
def retryOrFail (j : QJob) (now : Int) : QJob :=
  let made := j.attemptsMade + 1
  if made < queueAttempts then
    { j with
      attemptsMade := made,
      state := JobState.pending,
      dueAt := now + backoffDelay made }
  else { j with attemptsMade := made, state := JobState.failed }

/-- Replace a job in the queue by its id (Bull mutates the stored job record
in place). -/
def updateJob (jobs : List QJob) (j : QJob) : List QJob :=
  jobs.map (fun q => if q.id == j.id then j else q)

/-- One processing attempt of the worker from
`src/src/workers/post.worker.ts`: Bull hands the worker a pending job whose
due instant has passed; the worker calls `publishPost(postId)` and rethrows
any error.  On success the job completes (`removeOnComplete: false` keeps it);
on error Bull applies `retryOrFail`.  `dbOk` models whether the `publishPost`
call can reach the database at all: when false the call throws an
infrastructure error before mutating anything. -/
def workerAttempt (s : SysState) (jid : String) (now : Int) (dbOk : Bool) :
    SysState :=
  match s.jobs.find? (fun j =>
      j.id == jid && decide (j.state = JobState.pending)
        && decide (j.dueAt ≤ now)) with
  | none => s
  | some j =>
    if dbOk then
      match publishPost s now j.data.postId with
      | (s1, Except.ok _) =>
        { s1 with jobs := updateJob s1.jobs { j with state := JobState.completed } }
      | (s1, Except.error _) =>
        { s1 with jobs := updateJob s1.jobs (retryOrFail j now) }
    else { s with jobs := updateJob s.jobs (retryOrFail j now) }

/-- An externally triggered operation on the system: the four service entry
points plus one worker processing attempt. -/
inductive Op
  | create (now : Int) (uid : Nat) (d : CreatePostDTO) (qok : Bool)
  | update (now : Int) (pid uid : Nat) (d : UpdatePostDTO) (qok : Bool)
  | del (pid uid : Nat) (qok : Bool)
  | publish (now : Int) (pid : Nat)
  | work (jid : String) (now : Int) (dbOk : Bool)

/-- State reached after one operation (a throwing operation leaves the state
it produced up to the throw, as modelled in each service function). -/
def applyOp (s : SysState) : Op → SysState
  | Op.create now uid d qok => (createPost s now uid d qok).1
  | Op.update now pid uid d qok => (updatePost s now pid uid d qok).1
  | Op.del pid uid qok => (deletePost s pid uid qok).1
  | Op.publish now pid => (publishPost s now pid).1
  | Op.work jid now dbOk => workerAttempt s jid now dbOk

/-- The empty initial system: no posts, no jobs. -/
def initState : SysState := { db := [], jobs := [], nextId := 1 }

/-- State after a sequence of operations from the initial state. -/
def execOps (ops : List Op) : SysState := ops.foldl applyOp initState

/-- `PostResponse` from `src/src/types/post.types.ts`: the shape
`PostService.toPostResponse` returns; it has no `jobId` field
(`createdAt`/`updatedAt` omitted as in the `Post` model above). -/
structure PostResponse where
  id : Nat
  userId : Nat
  content : String
  platform : PostPlatform
  status : PostStatus
  scheduledAt : Option Int
  publishedAt : Option Int
deriving DecidableEq

/-- `PostService.toPostResponse` (`src/src/services/post.service.ts`, lines
218-230): the explicit field-by-field mapping; `jobId` is not copied. -/
def toPostResponse (p : Post) : PostResponse :=
  { id := p.id, userId := p.userId, content := p.content,
    platform := p.platform, status := p.status,
    scheduledAt := p.scheduledAt, publishedAt := p.publishedAt }

/-- Render a platform for the serialized-document model. -/
def platformStr : PostPlatform → String
  | PostPlatform.twitter => "twitter"
  | PostPlatform.linkedin => "linkedin"
  | PostPlatform.facebook => "facebook"

/-- Render a status for the serialized-document model. -/
def statusStr : PostStatus → String
  | PostStatus.draft => "draft"
  | PostStatus.scheduled => "scheduled"
  | PostStatus.published => "published"
  | PostStatus.failed => "failed"

/-- Render an optional instant for the serialized-document model. -/
def instantStr : Option Int → List (String × String) → List (String × String)
  | none, rest => rest
  | some t, rest => rest ++ [("value", toString t)]

/-- The raw mongoose document of a post as a key/value list (the `ret` object
handed to the `toJSON` transform): every schema path that is set, including
`jobId` when present, plus `_id` and `__v`. -/
def postDocAssoc (p : Post) : List (String × String) :=
  [("_id", toString p.id), ("userId", toString p.userId),
   ("content", p.content), ("platform", platformStr p.platform),
   ("status", statusStr p.status)]
  ++ (match p.scheduledAt with
      | some t => [("scheduledAt", toString t)]
      | none => [])
  ++ (match p.publishedAt with
      | some t => [("publishedAt", toString t)]
      | none => [])
  ++ (match p.jobId with
      | some k => [("jobId", k)]
      | none => [])
  ++ [("__v", "0")]

/-- The `toJSON` transform on `postSchema` (Post model part of
`src/src/config/database.ts`): `ret.id = ret._id; delete ret._id;
delete ret.__v; delete ret.jobId;`. -/
def toJSONTransform (ret : List (String × String)) : List (String × String) :=
  ("id", (((ret.find? (fun kv => kv.1 == "_id")).map Prod.snd).getD ""))
    :: ret.filter (fun kv =>
         kv.1 != "_id" && kv.1 != "__v" && kv.1 != "jobId")

/-- Key/value serialization of a `PostResponse` (the JSON body the API layer
returns): exactly the fields of `PostResponse`. -/
def responseAssoc (r : PostResponse) : List (String × String) :=
  [("id", toString r.id), ("userId", toString r.userId),
   ("content", r.content), ("platform", platformStr r.platform),
   ("status", statusStr r.status)]
  ++ (match r.scheduledAt with
      | some t => [("scheduledAt", toString t)]
      | none => [])
  ++ (match r.publishedAt with
      | some t => [("publishedAt", toString t)]
      | none => [])

/-- Per-document invariant that actually holds on every reachable post: the
due date is present exactly when the job reference is; a draft has neither and
no publish timestamp; a scheduled post has a due date and no publish
timestamp; a published post has a publish timestamp (but, because
`publishPost` clears nothing, it may retain `scheduledAt`/`jobId`); no post
ever reaches the `failed` status. -/
def PostInv (p : Post) : Prop :=
  (p.scheduledAt.isSome ↔ p.jobId.isSome) ∧
  (p.status = PostStatus.draft → p.scheduledAt = none ∧ p.publishedAt = none) ∧
  (p.status = PostStatus.scheduled →
    p.scheduledAt.isSome ∧ p.publishedAt = none) ∧
  (p.status = PostStatus.published → p.publishedAt.isSome) ∧
  p.status ≠ PostStatus.failed

/-- All stored posts satisfy the per-document invariant. -/
def DbInv (s : SysState) : Prop := ∀ p ∈ s.db, PostInv p

/-- The Bull queue never holds two jobs with the same id (Bull keys jobs by
id). -/
def JobsNodup (s : SysState) : Prop := (s.jobs.map QJob.id).Nodup

lemma mem_savePost {db : List Post} {pn q : Post} (h : q ∈ savePost db pn) :
    q = pn ∨ (q ∈ db ∧ (q.id == pn.id) = false) := by
  rcases List.mem_map.1 h with ⟨a, ha, rfl⟩
  by_cases hid : (a.id == pn.id) = true
  · left; simp [hid]
  · right
    simp only [Bool.not_eq_true] at hid
    simp [hid, ha]

lemma mem_deleteById {db : List Post} {pid : Nat} {q : Post}
    (h : q ∈ deleteById db pid) : q ∈ db ∧ (q.id == pid) = false := by
  have h' := List.mem_filter.1 h
  refine ⟨h'.1, ?_⟩
  have := h'.2
  simp only [bne_iff_ne, ne_eq, decide_eq_true_eq] at this
  simp [this]

lemma mem_append_elim {db : List Post} {p q : Post} (h : q ∈ db ++ [p]) :
    q ∈ db ∨ q = p := by
  rcases List.mem_append.1 h with h' | h'
  · exact Or.inl h'
  · right; simpa using h'

lemma deleteById_append_fresh (db : List Post) (p : Post)
    (h : ∀ q ∈ db, q.id ≠ p.id) : deleteById (db ++ [p]) p.id = db := by
  unfold deleteById
  rw [List.filter_append]
  have h1 : db.filter (fun q => q.id != p.id) = db := by
    apply List.filter_eq_self.2
    intro q hq
    simpa using h q hq
  have h2 : [p].filter (fun q => q.id != p.id) = [] := by simp
  rw [h1, h2, List.append_nil]

lemma find?_savePost_updated (db : List Post) (p pn : Post) (pid : Nat)
    (hid : pn.id = p.id) (h : db.find? (fun q => q.id == pid) = some p) :
    (savePost db pn).find? (fun q => q.id == pid) = some pn := by
  have hp : p.id = pid := by
    have := List.find?_some h
    simpa using this
  induction db with
  | nil => simp at h
  | cons a tl ih =>
    by_cases ha : (a.id == pid) = true
    · have hap : a = p := by
        simp only [List.find?_cons, ha] at h
        simpa using h
      have han : (a.id == pn.id) = true := by
        rw [hid, ← hap]; simp
      have hpn : (pn.id == pid) = true := by
        rw [hid, hp]; simp
      unfold savePost
      simp only [List.map_cons, han, if_true]
      simp [List.find?_cons, hpn]
    · have ha' : (a.id == pid) = false := by
        simpa using ha
      simp only [List.find?_cons, ha'] at h
      have han : (a.id == pn.id) = false := by
        have : a.id ≠ pid := by simpa using ha'
        rw [hid, hp]
        simpa using this
      unfold savePost
      simp only [List.map_cons, han, Bool.false_eq_true, if_false]
      simp only [List.find?_cons, han]
      have ha2 : (a.id == pid) = false := ha'
      simp only [ha2]
      exact ih h

lemma createPost_db_inv (s : SysState) (now : Int) (uid : Nat)
    (d : CreatePostDTO) (qok : Bool) (h : DbInv s) :
    DbInv (createPost s now uid d qok).1 := by
  rcases hd : d.scheduledAt with _ | t
  · simp only [createPost, hd]
    intro q hq
    rcases mem_append_elim hq with h1 | h1
    · exact h q h1
    · subst h1
      simp [PostInv]
  · simp only [createPost, hd]
    by_cases ht : t ≤ now
    · simp only [ht, if_true]
      exact h
    · simp only [ht, if_false]
      by_cases hq : qok
      · subst hq
        simp only [if_true]
        intro q hq
        rcases mem_savePost hq with h1 | ⟨h1, h2⟩
        · subst h1
          simp [PostInv]
        · rcases mem_append_elim h1 with h3 | h3
          · exact h q h3
          · subst h3
            simp at h2
      · simp only [hq, if_false]
        intro q hq
        have h1 := mem_deleteById hq
        rcases mem_append_elim h1.1 with h3 | h3
        · exact h q h3
        · subst h3
          have := h1.2
          simp at this

lemma updatePostRest_db_inv (s : SysState) (jobs1 : List QJob) (now : Int)
    (uid : Nat) (post1 : Post) (d : UpdatePostDTO) (qok : Bool)
    (h : DbInv s)
    (hpub : post1.publishedAt = none)
    (hsch : post1.status = PostStatus.scheduled → post1.jobId = none)
    (hother : post1.status ≠ PostStatus.scheduled → PostInv post1) :
    DbInv (updatePostRest s jobs1 now uid post1 d qok).1 := by
  rcases hd : d.scheduledAt with _ | t
  · simp only [updatePostRest, hd]
    by_cases hws : (post1.status == PostStatus.scheduled) = true
    · simp only [hws, if_true]
      intro q hq
      rcases mem_savePost hq with h1 | ⟨h1, _⟩
      · subst h1
        have hj : post1.jobId = none := hsch (by simpa using hws)
        simp [PostInv, hj, hpub]
      · exact h q h1
    · simp only [hws, Bool.false_eq_true, if_false]
      intro q hq
      rcases mem_savePost hq with h1 | ⟨h1, _⟩
      · subst h1
        have hinv := hother (by simpa using hws)
        exact hinv
      · exact h q h1
  · simp only [updatePostRest, hd]
    by_cases hq : qok
    · subst hq
      simp only [if_true]
      intro q hq
      rcases mem_savePost hq with h1 | ⟨h1, _⟩
      · subst h1
        simp [PostInv, hpub]
      · exact h q h1
    · simp only [hq, if_false]
      exact h

lemma updatePostApply_db_inv (s : SysState) (now : Int) (uid : Nat)
    (post : Post) (d : UpdatePostDTO) (qok : Bool)
    (h : DbInv s) (hinv : PostInv post)
    (hnp : post.status ≠ PostStatus.published) :
    DbInv (updatePostApply s now uid post d qok).1 := by
  unfold updatePostApply
  by_cases hc : (post.status == PostStatus.scheduled && post.jobId.isSome) = true
  · simp only [hc, if_true]
    by_cases hqk : qok
    · subst hqk
      simp only [if_true]
      apply updatePostRest_db_inv _ _ _ _ _ _ _ h
      · have hs : post.status = PostStatus.scheduled := by
          have h2 : (post.status == PostStatus.scheduled) = true ∧
              post.jobId.isSome = true := by
            simpa [Bool.and_eq_true] using hc
          simpa using h2.1
        exact (hinv.2.2.1 hs).2
      · intro _
        rfl
      · intro hns
        have hs : post.status = PostStatus.scheduled := by
          have h2 : (post.status == PostStatus.scheduled) = true ∧
              post.jobId.isSome = true := by
            simpa [Bool.and_eq_true] using hc
          simpa using h2.1
        exact absurd hs hns
    · simp only [hqk, if_false]
      exact h
  · simp only [hc, Bool.false_eq_true, if_false]
    by_cases hs : post.status = PostStatus.scheduled
    · exfalso
      have hjob : post.jobId.isSome := (hinv.1).1 (hinv.2.2.1 hs).1
      apply hc
      simp [hs, hjob]
    · apply updatePostRest_db_inv _ _ _ _ _ _ _ h
      · rcases hst : post.status with _ | _ | _ | _
        · exact (hinv.2.1 hst).2
        · exact absurd hst hs
        · exact absurd hst hnp
        · exact absurd hst hinv.2.2.2.2
      · intro hs'
        exact absurd hs' hs
      · intro _
        exact hinv

lemma updatePost_db_inv (s : SysState) (now : Int) (pid uid : Nat)
    (d : UpdatePostDTO) (qok : Bool) (h : DbInv s) :
    DbInv (updatePost s now pid uid d qok).1 := by
  unfold updatePost
  rcases hf : s.db.find? (fun p => p.id == pid && p.userId == uid) with _ | post
  · simp only [hf]
    exact h
  · have hmem := List.mem_of_find?_eq_some hf
    have hinv := h post hmem
    simp only [hf]
    by_cases hp : (post.status == PostStatus.published) = true
    · simp only [hp, if_true]
      exact h
    · simp only [hp, Bool.false_eq_true, if_false]
      have hnp : post.status ≠ PostStatus.published := by simpa using hp
      rcases hd : d.scheduledAt with _ | t
      · exact updatePostApply_db_inv s now uid post d qok h hinv hnp
      · by_cases ht : t ≤ now
        · simp only [ht, if_true]
          exact h
        · simp only [ht, if_false]
          exact updatePostApply_db_inv s now uid post d qok h hinv hnp

lemma deletePost_db_inv (s : SysState) (pid uid : Nat) (qok : Bool)
    (h : DbInv s) : DbInv (deletePost s pid uid qok).1 := by
  unfold deletePost
  rcases hf : s.db.find? (fun p => p.id == pid && p.userId == uid) with _ | post
  · simp only [hf]
    exact h
  · simp only [hf]
    rcases hj : post.jobId with _ | jid
    · intro q hq
      exact h q (mem_deleteById hq).1
    · by_cases hqk : qok
      · subst hqk
        simp only [if_true]
        intro q hq
        exact h q (mem_deleteById hq).1
      · simp only [hqk, if_false]
        exact h

lemma publishPost_db_inv (s : SysState) (now : Int) (pid : Nat)
    (h : DbInv s) : DbInv (publishPost s now pid).1 := by
  unfold publishPost
  rcases hf : s.db.find? (fun p => p.id == pid) with _ | post
  · simp only [hf]
    exact h
  · have hinv := h post (List.mem_of_find?_eq_some hf)
    simp only [hf]
    by_cases hp : (post.status == PostStatus.published) = true
    · simp only [hp, if_true]
      exact h
    · simp only [hp, Bool.false_eq_true, if_false]
      intro q hq
      rcases mem_savePost hq with h1 | ⟨h1, _⟩
      · subst h1
        refine ⟨hinv.1, ?_, ?_, ?_, ?_⟩ <;> simp [PostInv]
      · exact h q h1

lemma publishPost_jobs (s : SysState) (now : Int) (pid : Nat) :
    (publishPost s now pid).1.jobs = s.jobs := by
  unfold publishPost
  rcases hf : s.db.find? (fun p => p.id == pid) with _ | post
  · simp only [hf]
  · simp only [hf]
    by_cases hp : (post.status == PostStatus.published) = true
    · simp [hp]
    · simp [hp]

lemma workerAttempt_db_inv (s : SysState) (jid : String) (now : Int)
    (dbOk : Bool) (h : DbInv s) : DbInv (workerAttempt s jid now dbOk) := by
  unfold workerAttempt
  rcases hf : s.jobs.find? (fun j =>
      j.id == jid && decide (j.state = JobState.pending)
        && decide (j.dueAt ≤ now)) with _ | j
  · simp only [hf]
    exact h
  · simp only [hf]
    by_cases hdb : dbOk
    · subst hdb
      simp only [if_true]
      rcases hpub : publishPost s now j.data.postId with ⟨s1, r⟩
      have hs1 : DbInv s1 := by
        have := publishPost_db_inv s now j.data.postId h
        rw [hpub] at this
        exact this
      rcases r with _ | e
      · simpa using hs1
      · simpa using hs1
    · simp only [hdb, if_false]
      exact h

lemma applyOp_db_inv (s : SysState) (op : Op) (h : DbInv s) :
    DbInv (applyOp s op) := by
  rcases op with ⟨now, uid, d, qok⟩ | ⟨now, pid, uid, d, qok⟩ |
    ⟨pid, uid, qok⟩ | ⟨now, pid⟩ | ⟨jid, now, dbOk⟩
  · exact createPost_db_inv s now uid d qok h
  · exact updatePost_db_inv s now pid uid d qok h
  · exact deletePost_db_inv s pid uid qok h
  · exact publishPost_db_inv s now pid h
  · exact workerAttempt_db_inv s jid now dbOk h

lemma foldl_db_inv (ops : List Op) : ∀ s : SysState, DbInv s →
    DbInv (ops.foldl applyOp s) := by
  induction ops with
  | nil => intro s h; simpa using h
  | cons op tl ih =>
    intro s h
    simp only [List.foldl_cons]
    exact ih _ (applyOp_db_inv s op h)

lemma execOps_db_inv (ops : List Op) : DbInv (execOps ops) := by
  unfold execOps
  apply foldl_db_inv
  intro p hp
  simp [initState] at hp

lemma addJob_nodup (jobs : List QJob) (d : JobData) (now delay : Int)
    (h : (jobs.map QJob.id).Nodup) :
    (((addJob jobs d now delay).1).map QJob.id).Nodup := by
  unfold addJob
  by_cases ha : (jobs.any (fun j => j.id == postKey d.postId)) = true
  · simpa [ha] using h
  · simp only [ha, Bool.false_eq_true, if_false]
    rw [List.map_append]
    rw [List.nodup_append]
    refine ⟨h, by simp, ?_⟩
    intro x hx
    rcases List.mem_map.1 hx with ⟨j, hj, rfl⟩
    have hane : (jobs.any (fun q => q.id == postKey d.postId)) = false := by
      simpa using ha
    have hj2 := List.any_eq_false.1 hane j hj
    simpa using hj2

lemma addJob_key (jobs : List QJob) (d : JobData) (now delay : Int) :
    (addJob jobs d now delay).2 = postKey d.postId := by
  simp only [addJob]
  split
  · rfl
  · rfl

lemma removeJob_nodup (jobs : List QJob) (jid : String)
    (h : (jobs.map QJob.id).Nodup) :
    ((removeJob jobs jid).map QJob.id).Nodup :=
  h.sublist ((List.filter_sublist jobs).map QJob.id)

lemma updateJob_map_id (jobs : List QJob) (j : QJob) :
    (updateJob jobs j).map QJob.id = jobs.map QJob.id := by
  unfold updateJob
  rw [List.map_map]
  apply List.map_congr_left
  intro q _
  by_cases hid : (q.id == j.id) = true
  · simp only [Function.comp_apply, hid, if_true]
    exact (eq_of_beq hid).symm
  · have hne : q.id ≠ j.id := by simpa using hid
    simp [Function.comp_apply, hne]

lemma createPost_jobs_nodup (s : SysState) (now : Int) (uid : Nat)
    (d : CreatePostDTO) (qok : Bool) (h : (s.jobs.map QJob.id).Nodup) :
    (((createPost s now uid d qok).1.jobs).map QJob.id).Nodup := by
  rcases hd : d.scheduledAt with _ | t
  · simpa [createPost, hd] using h
  · simp only [createPost, hd]
    by_cases ht : t ≤ now
    · simpa [ht] using h
    · simp only [ht, if_false]
      by_cases hq : qok
      · subst hq
        simp only [if_true]
        exact addJob_nodup s.jobs _ now (t - now) h
      · simpa [hq] using h

lemma updatePostRest_jobs_nodup (s : SysState) (jobs1 : List QJob) (now : Int)
    (uid : Nat) (post1 : Post) (d : UpdatePostDTO) (qok : Bool)
    (h : (jobs1.map QJob.id).Nodup) :
    (((updatePostRest s jobs1 now uid post1 d qok).1.jobs).map QJob.id).Nodup := by
  rcases hd : d.scheduledAt with _ | t
  · by_cases hws : (post1.status == PostStatus.scheduled) = true
    · simpa [updatePostRest, hd, hws] using h
    · simpa [updatePostRest, hd, hws] using h
  · simp only [updatePostRest, hd]
    by_cases hq : qok
    · subst hq
      simp only [if_true]
      exact addJob_nodup jobs1 _ now (t - now) h
    · simpa [hq] using h

lemma updatePost_jobs_nodup (s : SysState) (now : Int) (pid uid : Nat)
    (d : UpdatePostDTO) (qok : Bool) (h : (s.jobs.map QJob.id).Nodup) :
    (((updatePost s now pid uid d qok).1.jobs).map QJob.id).Nodup := by
  unfold updatePost
  rcases hf : s.db.find? (fun p => p.id == pid && p.userId == uid) with _ | post
  · simpa [hf] using h
  · simp only [hf]
    by_cases hp : (post.status == PostStatus.published) = true
    · simpa [hp] using h
    · simp only [hp, Bool.false_eq_true, if_false]
      have happ : ∀ jobs1 : List QJob, (jobs1.map QJob.id).Nodup →
          (((updatePostApply s now uid post d qok).1.jobs).map QJob.id).Nodup := by
        intro jobs1 hj
        unfold updatePostApply
        by_cases hc : (post.status == PostStatus.scheduled &&
            post.jobId.isSome) = true
        · simp only [hc, if_true]
          by_cases hqk : qok
          · subst hqk
            simp only [if_true]
            exact updatePostRest_jobs_nodup _ _ _ _ _ _ _
              (removeJob_nodup s.jobs _ h)
          · simpa [hqk] using h
        · simp only [hc, Bool.false_eq_true, if_false]
          exact updatePostRest_jobs_nodup _ _ _ _ _ _ _ h
      rcases hd : d.scheduledAt with _ | t
      · exact happ s.jobs h
      · by_cases ht : t ≤ now
        · simpa [ht] using h
        · simp only [ht, if_false]
          exact happ s.jobs h

lemma deletePost_jobs_nodup (s : SysState) (pid uid : Nat) (qok : Bool)
    (h : (s.jobs.map QJob.id).Nodup) :
    (((deletePost s pid uid qok).1.jobs).map QJob.id).Nodup := by
  unfold deletePost
  rcases hf : s.db.find? (fun p => p.id == pid && p.userId == uid) with _ | post
  · simpa [hf] using h
  · simp only [hf]
    rcases hj : post.jobId with _ | jid
    · simpa using h
    · by_cases hqk : qok
      · subst hqk
        simp only [if_true]
        exact removeJob_nodup s.jobs jid h
      · simpa [hqk] using h

lemma workerAttempt_jobs_nodup (s : SysState) (jid : String) (now : Int)
    (dbOk : Bool) (h : (s.jobs.map QJob.id).Nodup) :
    (((workerAttempt s jid now dbOk).jobs).map QJob.id).Nodup := by
  unfold workerAttempt
  rcases hf : s.jobs.find? (fun j =>
      j.id == jid && decide (j.state = JobState.pending)
        && decide (j.dueAt ≤ now)) with _ | j
  · simpa [hf] using h
  · simp only [hf]
    by_cases hdb : dbOk
    · subst hdb
      simp only [if_true]
      rcases hpub : publishPost s now j.data.postId with ⟨s1, r⟩
      have hjobs : s1.jobs = s.jobs := by
        have := publishPost_jobs s now j.data.postId
        rw [hpub] at this
        exact this
      rcases r with _ | e
      · simp only [updateJob_map_id, hjobs]
        exact h
      · simp only [updateJob_map_id, hjobs]
        exact h
    · have hdb' : dbOk = false := by simpa using hdb
      subst hdb'
      simp only [Bool.false_eq_true, if_false, updateJob_map_id]
      exact h

lemma applyOp_jobs_nodup (s : SysState) (op : Op)
    (h : (s.jobs.map QJob.id).Nodup) :
    (((applyOp s op).jobs).map QJob.id).Nodup := by
  rcases op with ⟨now, uid, d, qok⟩ | ⟨now, pid, uid, d, qok⟩ |
    ⟨pid, uid, qok⟩ | ⟨now, pid⟩ | ⟨jid, now, dbOk⟩
  · exact createPost_jobs_nodup s now uid d qok h
  · exact updatePost_jobs_nodup s now pid uid d qok h
  · exact deletePost_jobs_nodup s pid uid qok h
  · have := publishPost_jobs s now pid
    simp only [applyOp, this]
    exact h
  · exact workerAttempt_jobs_nodup s jid now dbOk h

lemma execOps_jobs_nodup (ops : List Op) :
    (((execOps ops).jobs).map QJob.id).Nodup := by
  unfold execOps
  have : ∀ s : SysState, (s.jobs.map QJob.id).Nodup →
      (((ops.foldl applyOp s).jobs).map QJob.id).Nodup := by
    induction ops with
    | nil => intro s h; simpa using h
    | cons op tl ih =>
      intro s h
      simp only [List.foldl_cons]
      exact ih _ (applyOp_jobs_nodup s op h)
  apply this
  simp [initState]

lemma map_const_length_le_one {α β : Type} (l : List α) (f : α → β) (k : β)
    (hnd : (l.map f).Nodup) (hall : ∀ x ∈ l, f x = k) : l.length ≤ 1 := by
  match l with
  | [] => simp
  | [a] => simp
  | a :: b :: tl =>
    exfalso
    rw [List.map_cons, List.map_cons, List.nodup_cons] at hnd
    have ha := hall a (by simp)
    have hb := hall b (by simp)
    exact hnd.1 (by rw [ha, hb]; simp)

lemma pending_key_le_one (jobs : List QJob) (k : String)
    (hnd : (jobs.map QJob.id).Nodup) :
    (jobs.filter (fun j =>
      j.id == k && decide (j.state = JobState.pending))).length ≤ 1 := by
  apply map_const_length_le_one _ QJob.id k
  · exact hnd.sublist ((List.filter_sublist jobs).map QJob.id)
  · intro x hx
    have h2 := (List.mem_filter.1 hx).2
    have h3 : (x.id == k) = true := by
      have := (Bool.and_eq_true _ _) ▸ h2
      exact this.1
    exact eq_of_beq h3

/-- DTO used in the concrete example runs: content "hi" for twitter,
scheduled at instant 10000. -/
def dtoEx : CreatePostDTO :=
  { content := "hi", platform := PostPlatform.twitter,
    scheduledAt := some 10000 }

/-- System after `createPost` of `dtoEx` by user 7 at time 0: one scheduled
post (id 1) and one pending job `post-1` due at 10000. -/
def sSched : SysState := execOps [Op.create 0 7 dtoEx true]

/-- `sSched` after the dispatcher published post 1 at time 5. -/
def sPub : SysState := execOps [Op.create 0 7 dtoEx true, Op.publish 5 1]

/-- `sSched` after three failing processing attempts of job `post-1` (at its
due time 10000 and then at each backoff due time). -/
def sFail : SysState := execOps [Op.create 0 7 dtoEx true,
  Op.work "post-1" 10000 false, Op.work "post-1" 12000 false,
  Op.work "post-1" 16000 false]

/-- The post stored in `sSched`. -/
def postSched : Post :=
  { id := 1, userId := 7, content := "hi", platform := PostPlatform.twitter,
    status := PostStatus.scheduled, scheduledAt := some 10000,
    publishedAt := none, jobId := some "post-1" }

/-- Status of the post with id 1, when present. -/
def post1Status (s : SysState) : Option PostStatus :=
  (s.db.find? (fun p => p.id == 1)).map Post.status

/-- Stored due date of the post with id 1, when present. -/
def post1ScheduledAt (s : SysState) : Option (Option Int) :=
  (s.db.find? (fun p => p.id == 1)).map Post.scheduledAt

/-- Stored job reference of the post with id 1, when present. -/
def post1JobRef (s : SysState) : Option (Option String) :=
  (s.db.find? (fun p => p.id == 1)).map Post.jobId

/-- State of the queue job `post-1`, when present. -/
def job1State (s : SysState) : Option JobState :=
  (s.jobs.find? (fun j => j.id == "post-1")).map QJob.state

/-- C6 (confirmed): `calculateDelay t now` fails with the
"Scheduled time must be in the future" `BadRequestError` exactly when `t` is
not strictly after `now`; when it succeeds, the result equals `t - now` in
whole milliseconds (both operands are integral, so `Math.floor` is the
identity) and is never negative. -/
theorem c6_calculateDelay_spec (t now : Int) :
    (calculateDelay t now =
      Except.error (Err.badRequest "Scheduled time must be in the future")
        ↔ t ≤ now) ∧
    (∀ d : Int, calculateDelay t now = Except.ok d → d = t - now ∧ 0 ≤ d) := by
  by_cases h : now < t
  · have hb : isFutureTime t now = true := by simp [isFutureTime, h]
    unfold calculateDelay
    rw [if_pos hb]
    refine ⟨⟨fun hc => absurd hc (by simp), fun hle => absurd hle (not_le.2 h)⟩, ?_⟩
    intro d hd
    have hv : t - now = d := by simpa using hd
    rw [← hv]
    exact ⟨rfl, by omega⟩
  · have hb : isFutureTime t now = false := by
      simp only [isFutureTime, decide_eq_false_iff_not]
      exact h
    unfold calculateDelay
    rw [if_neg (by simp [hb])]
    refine ⟨⟨fun _ => by omega, fun _ => rfl⟩, ?_⟩
    intro d hd
    exact absurd hd (by simp)

/-- Witness for C6 at `t = 10000`, `now = 0`: the delay is 10000 ms. -/
theorem c6_witness :
    calculateDelay 10000 0 = Except.ok 10000 ∧
    ((10000 : Int) = 10000 - 0 ∧ (0 : Int) ≤ 10000) := by
  constructor
  · rfl
  · exact (c6_calculateDelay_spec 10000 0).2 10000 (by rfl)

/-- C4 (confirmed): a `createPost` whose `scheduledAt` is not strictly in the
future fails with the "Scheduled time must be in the future"
`BadRequestError` and the system state is completely unchanged: no post
record is created and no job is enqueued. -/
theorem c4_create_past_rejected (s : SysState) (now : Int) (uid : Nat)
    (d : CreatePostDTO) (t : Int) (qok : Bool)
    (hd : d.scheduledAt = some t) (ht : t ≤ now) :
    createPost s now uid d qok =
      (s, Except.error
            (Err.badRequest "Scheduled time must be in the future")) := by
  simp [createPost, hd, ht]

/-- DTO with a due date one second in the past relative to `now = 0`. -/
def dtoPast : CreatePostDTO :=
  { content := "late", platform := PostPlatform.twitter,
    scheduledAt := some (-1000) }

/-- Witness for C4: creating with `scheduledAt = now - 1 s` at `now = 0`
leaves `sSched` untouched and errors. -/
theorem c4_witness :
    createPost sSched 0 7 dtoPast true =
      (sSched, Except.error
        (Err.badRequest "Scheduled time must be in the future")) :=
  c4_create_past_rejected sSched 0 7 dtoPast (-1000) true rfl (by decide)

/-- C5 (confirmed): when the enqueue of the job for a validly scheduled
`createPost` fails, the just-created post is deleted again (the posts
collection and the queue end up exactly as before) and the caller receives
the scheduling-failure error — `BadRequestError('Failed to schedule post')`,
the error the spec calls `SchedulingFailed`. -/
theorem c5_create_enqueue_failure_rolls_back (s : SysState) (now : Int)
    (uid : Nat) (d : CreatePostDTO) (t : Int)
    (hd : d.scheduledAt = some t) (ht : now < t)
    (hfresh : ∀ q ∈ s.db, q.id ≠ s.nextId) :
    (createPost s now uid d false).1.db = s.db ∧
    (createPost s now uid d false).1.jobs = s.jobs ∧
    (createPost s now uid d false).2 =
      Except.error (Err.badRequest "Failed to schedule post") := by
  have hnt : ¬ t ≤ now := not_le.2 ht
  refine ⟨?_, ?_, ?_⟩
  · simp only [createPost, hd, hnt, if_false, Bool.false_eq_true]
    exact deleteById_append_fresh s.db _ hfresh
  · simp [createPost, hd, hnt]
  · simp [createPost, hd, hnt]

/-- Witness for C5: re-creating `dtoEx` against `sSched` with a failing
queue rolls back to exactly `sSched`'s collection and queue. -/
theorem c5_witness :
    (createPost sSched 0 7 dtoEx false).1.db = sSched.db ∧
    (createPost sSched 0 7 dtoEx false).1.jobs = sSched.jobs ∧
    (createPost sSched 0 7 dtoEx false).2 =
      Except.error (Err.badRequest "Failed to schedule post") :=
  c5_create_enqueue_failure_rolls_back sSched 0 7 dtoEx 10000 rfl (by decide)
    (by decide)

/-- C3 (confirmed): for an existing post id, calling `publishPost` twice in
sequence produces exactly the state of calling it once — the second call
returns success and changes nothing, so `publishedAt` and every other field
stay as the first call left them. -/
theorem c3_publish_idempotent (s : SysState) (now1 now2 : Int) (pid : Nat)
    (h : (s.db.find? (fun p => p.id == pid)).isSome = true) :
    publishPost (publishPost s now1 pid).1 now2 pid =
      ((publishPost s now1 pid).1, Except.ok ()) := by
  rcases hf : s.db.find? (fun p => p.id == pid) with _ | post
  · rw [hf] at h
    simp at h
  · by_cases hp : (post.status == PostStatus.published) = true
    · have h1 : (publishPost s now1 pid).1 = s := by
        unfold publishPost
        rw [hf]
        simp [hp]
      rw [h1]
      unfold publishPost
      rw [hf]
      simp [hp]
    · have h1 : (publishPost s now1 pid).1.db =
          savePost s.db
            { post with
              status := PostStatus.published, publishedAt := some now1 } := by
        unfold publishPost
        rw [hf]
        simp [hp]
      have hfind : ((publishPost s now1 pid).1).db.find? (fun q => q.id == pid) =
          some { post with
                 status := PostStatus.published,
                 publishedAt := some now1 } := by
        rw [h1]
        exact find?_savePost_updated s.db post _ pid rfl hf
      set s1 := (publishPost s now1 pid).1 with hs1
      unfold publishPost
      rw [hfind]
      simp

/-- Witness for C3: publishing post 1 of `sSched` at time 5 and again at
time 20 equals the single publish. -/
theorem c3_witness :
    publishPost (publishPost sSched 5 1).1 20 1 =
      ((publishPost sSched 5 1).1, Except.ok ()) :=
  c3_publish_idempotent sSched 5 20 1 (by decide)

/-- C1 counterexample: after `createPost` (scheduled) followed by
`publishPost`, post 1 is `published` yet still carries `scheduledAt = 10000`
and `jobId = "post-1"`, because `publishPost` clears neither field; so a
published post can have a due date and a job reference, refuting the claimed
three-way iff. -/
theorem c1_counterexample :
    post1Status sPub = some PostStatus.published ∧
    post1ScheduledAt sPub = some (some 10000) ∧
    post1JobRef sPub = some (some "post-1") := ⟨rfl, rfl, rfl⟩

/-- C1 (amended): in every state reachable by createPost/updatePost/
deletePost/publishPost (and worker steps), each stored post satisfies:
`scheduledAt` is present iff `jobId` is present; a draft has neither; a
scheduled post has both; a published post has `publishedAt` set — but may
retain `scheduledAt`/`jobId` from its scheduled phase, since `publishPost`
does not clear them. -/
theorem c1_amended_invariant (ops : List Op) :
    ∀ p ∈ (execOps ops).db,
      (p.scheduledAt.isSome ↔ p.jobId.isSome) ∧
      (p.status = PostStatus.draft → p.scheduledAt = none ∧ p.jobId = none) ∧
      (p.status = PostStatus.scheduled →
        p.scheduledAt.isSome ∧ p.jobId.isSome) ∧
      (p.status = PostStatus.published → p.publishedAt.isSome) := by
  intro p hp
  have hinv := execOps_db_inv ops p hp
  refine ⟨hinv.1, ?_, ?_, hinv.2.2.2.1⟩
  · intro hd
    have h1 := hinv.2.1 hd
    refine ⟨h1.1, ?_⟩
    have hjs : ¬ p.jobId.isSome = true := by
      intro hj
      have := hinv.1.2 hj
      rw [h1.1] at this
      simp at this
    exact Option.not_isSome_iff_eq_none.1 hjs
  · intro hs
    exact ⟨(hinv.2.2.1 hs).1, hinv.1.1 (hinv.2.2.1 hs).1⟩

/-- Witness for C1 (amended) at the one-post run creating `postSched`. -/
theorem c1_witness :
    (postSched.scheduledAt.isSome ↔ postSched.jobId.isSome) ∧
    (postSched.status = PostStatus.draft →
      postSched.scheduledAt = none ∧ postSched.jobId = none) ∧
    (postSched.status = PostStatus.scheduled →
      postSched.scheduledAt.isSome ∧ postSched.jobId.isSome) ∧
    (postSched.status = PostStatus.published →
      postSched.publishedAt.isSome) :=
  c1_amended_invariant [Op.create 0 7 dtoEx true] postSched (by decide)

/-- Update payload that changes only the content. -/
def updContentOnly : UpdatePostDTO := { content := some "new" }

/-- Update payload that reschedules to instant 20000. -/
def updResched : UpdatePostDTO := { scheduledAt := some 20000 }

/-- C2 counterexample: a content-only `updatePost` (no `scheduledAt` in the
changes) on the scheduled post of `sSched` does not keep it scheduled: the
post ends up `draft` with `scheduledAt` cleared and the queue emptied. -/
theorem c2_counterexample :
    post1Status (updatePost sSched 1 1 7 updContentOnly true).1 =
      some PostStatus.draft ∧
    post1ScheduledAt (updatePost sSched 1 1 7 updContentOnly true).1 =
      some none ∧
    (updatePost sSched 1 1 7 updContentOnly true).1.jobs = [] :=
  ⟨rfl, rfl, rfl⟩

/-- C2 (amended): updating a scheduled post always cancels its job first;
an update whose changes contain no `scheduledAt` then transitions the post to
`draft`, clearing the due date and the job reference (the due date is not
retained); only an update that does contain a (future) `scheduledAt` leaves
the post scheduled, with the new due date and a fresh job reference under the
deterministic key. -/
theorem c2_amended (s : SysState) (now : Int) (pid uid : Nat)
    (d : UpdatePostDTO) (post : Post) (jid : String)
    (hf : s.db.find? (fun p => p.id == pid && p.userId == uid) = some post)
    (hs : post.status = PostStatus.scheduled)
    (hj : post.jobId = some jid) :
    (d.scheduledAt = none →
      (updatePost s now pid uid d true).2 =
        Except.ok { post with
                    content := d.content.getD post.content,
                    platform := d.platform.getD post.platform,
                    status := PostStatus.draft, scheduledAt := none,
                    jobId := none } ∧
      (updatePost s now pid uid d true).1.jobs = removeJob s.jobs jid) ∧
    (∀ t : Int, d.scheduledAt = some t → now < t →
      ((updatePost s now pid uid d true).2.toOption.map Post.status =
        some PostStatus.scheduled) ∧
      ((updatePost s now pid uid d true).2.toOption.map Post.scheduledAt =
        some (some t)) ∧
      ((updatePost s now pid uid d true).2.toOption.map Post.jobId =
        some (some (postKey post.id)))) := by
  have hsb : (post.status == PostStatus.published) = false := by
    simp [hs]
  have hcond : (post.status == PostStatus.scheduled &&
      post.jobId.isSome) = true := by
    simp [hs, hj]
  have hget : post.jobId.getD "" = jid := by simp [hj]
  constructor
  · intro hd
    unfold updatePost
    rw [hf, hd]
    simp only [hsb, Bool.false_eq_true, if_false]
    unfold updatePostApply
    rw [hcond]
    simp only [if_true, hget]
    unfold updatePostRest
    rw [hd]
    simp only [hs]
    constructor
    · rfl
    · rfl
  · intro t hd hlt
    have hnt : ¬ t ≤ now := not_le.2 hlt
    unfold updatePost
    rw [hf, hd]
    simp only [hsb, Bool.false_eq_true, if_false, hnt]
    unfold updatePostApply
    rw [hcond]
    simp only [if_true, hget]
    unfold updatePostRest
    rw [hd]
    refine ⟨rfl, rfl, ?_⟩
    simp only [Except.toOption, Option.map, addJob_key]
    rfl

/-- Witness for C2 (amended): the content-only update of `sSched` goes to
draft with its job cancelled, and the rescheduling update stays scheduled at
the new instant with the deterministic key. -/
theorem c2_witness :
    ((updatePost sSched 1 1 7 updContentOnly true).2 =
      Except.ok { postSched with
                  content := updContentOnly.content.getD postSched.content,
                  platform := updContentOnly.platform.getD postSched.platform,
                  status := PostStatus.draft, scheduledAt := none,
                  jobId := none } ∧
     (updatePost sSched 1 1 7 updContentOnly true).1.jobs =
       removeJob sSched.jobs "post-1") ∧
    (((updatePost sSched 1 1 7 updResched true).2.toOption.map Post.status =
        some PostStatus.scheduled) ∧
     ((updatePost sSched 1 1 7 updResched true).2.toOption.map
        Post.scheduledAt = some (some 20000)) ∧
     ((updatePost sSched 1 1 7 updResched true).2.toOption.map Post.jobId =
        some (some (postKey postSched.id)))) := by
  constructor
  · exact (c2_amended sSched 1 1 7 updContentOnly postSched "post-1"
      (by decide) rfl rfl).1 rfl
  · exact (c2_amended sSched 1 1 7 updResched postSched "post-1"
      (by decide) rfl rfl).2 20000 rfl (by decide)

/-- C7 counterexample: after the job `post-1` exhausts its three processing
attempts (each failing), the job is `failed` with `attemptsMade = 3`, yet
post 1 is still `scheduled` — never `failed` — because no code path ever sets
`PostStatus.failed`; this refutes the claimed entity-status transition. -/
theorem c7_counterexample :
    post1Status sFail = some PostStatus.scheduled ∧
    job1State sFail = some JobState.failed ∧
    (sFail.jobs.find? (fun j => j.id == "post-1")).map QJob.attemptsMade =
      some 3 := ⟨rfl, rfl, rfl⟩

/-- C7 (amended): the queue is configured with exactly 3 attempts and
exponential backoff at base 2000 ms doubling per retry; a failed attempt
increments the attempt counter, re-delays the job by
`2000 * 2 ^ attemptsMade` while attempts remain, and marks it `failed`
(still retained in the queue, `removeOnFail: false`) once 3 attempts are
exhausted — but a failing attempt changes no post document at all, so the
owning post's status stays `scheduled` instead of becoming `failed`. -/
theorem c7_amended (s : SysState) (jid : String) (now : Int) :
    (workerAttempt s jid now false).db = s.db ∧
    (workerAttempt s jid now false).jobs.map QJob.id = s.jobs.map QJob.id ∧
    queueAttempts = 3 ∧ backoffBaseDelay = 2000 ∧
    (∀ j : QJob, (retryOrFail j now).attemptsMade = j.attemptsMade + 1) ∧
    (∀ j : QJob, j.attemptsMade + 1 < queueAttempts →
      (retryOrFail j now).state = JobState.pending ∧
      (retryOrFail j now).dueAt = now + backoffBaseDelay * 2 ^ j.attemptsMade) ∧
    (∀ j : QJob, queueAttempts ≤ j.attemptsMade + 1 →
      (retryOrFail j now).state = JobState.failed) := by
  refine ⟨?_, ?_, rfl, rfl, ?_, ?_, ?_⟩
  · unfold workerAttempt
    rcases hf : s.jobs.find? (fun j =>
        j.id == jid && decide (j.state = JobState.pending)
          && decide (j.dueAt ≤ now)) with _ | j
    · rw [hf]
    · rw [hf]
      simp
  · unfold workerAttempt
    rcases hf : s.jobs.find? (fun j =>
        j.id == jid && decide (j.state = JobState.pending)
          && decide (j.dueAt ≤ now)) with _ | j
    · rw [hf]
    · rw [hf]
      simp only [Bool.false_eq_true, if_false]
      exact updateJob_map_id s.jobs (retryOrFail j now)
  · intro j
    unfold retryOrFail
    by_cases hlt : j.attemptsMade + 1 < queueAttempts
    · simp [hlt]
    · simp [hlt]
  · intro j hlt
    unfold retryOrFail
    simp only [hlt, if_true]
    simp [backoffDelay]
  · intro j hge
    unfold retryOrFail
    have h2 : ¬ j.attemptsMade + 1 < queueAttempts := not_lt.2 hge
    simp [h2]

/-- A pending job as enqueued for post 1, before any attempt. -/
def jobEx : QJob :=
  { id := "post-1",
    data := { postId := 1, userId := 7, content := "hi",
              platform := PostPlatform.twitter },
    dueAt := 10000, attemptsMade := 0, state := JobState.pending }

/-- The same job after two failed attempts. -/
def jobEx2 : QJob := { jobEx with attemptsMade := 2, dueAt := 16000 }

/-- Witness for C7 (amended): a failing attempt on `sSched` leaves the posts
collection untouched; the first retry of `jobEx` is re-delayed by 2000 ms,
and the third attempt marks it failed. -/
theorem c7_witness :
    (workerAttempt sSched "post-1" 10000 false).db = sSched.db ∧
    ((retryOrFail jobEx 10000).state = JobState.pending ∧
      (retryOrFail jobEx 10000).dueAt = 10000 + 2000 * 2 ^ 0) ∧
    (retryOrFail jobEx2 16000).state = JobState.failed := by
  refine ⟨(c7_amended sSched "post-1" 10000).1, ?_, ?_⟩
  · exact (c7_amended sSched "post-1" 10000).2.2.2.2.2.1 jobEx (by decide)
  · exact (c7_amended sSched "post-1" 16000).2.2.2.2.2.2 jobEx2 (by decide)

/-- C8 counterexample: deleting the scheduled post of `sSched` while the
queue call fails surfaces the infrastructure error and leaves the record in
place — the cancellation failure does prevent the deletion, refuting the
claimed best-effort behaviour. -/
theorem c8_counterexample :
    (deletePost sSched 1 7 false).2 = Except.error Err.infra ∧
    (deletePost sSched 1 7 false).1.db = sSched.db ∧
    post1Status (deletePost sSched 1 7 false).1 =
      some PostStatus.scheduled := ⟨rfl, rfl, rfl⟩

/-- C8 (amended): `deletePost` fails `NotFound` with no mutation when no
post matches the id and owner; otherwise it removes the referenced job (a
no-op when no such job is in the queue) and then deletes the record — but
when the queue removal itself throws, the error propagates and the record is
NOT deleted. -/
theorem c8_amended (s : SysState) (pid uid : Nat) :
    (s.db.find? (fun p => p.id == pid && p.userId == uid) = none →
      ∀ qok : Bool, deletePost s pid uid qok =
        (s, Except.error (Err.notFound "Post not found"))) ∧
    (∀ post : Post,
      s.db.find? (fun p => p.id == pid && p.userId == uid) = some post →
      ∀ jid : String, post.jobId = some jid →
        deletePost s pid uid true =
          ({ s with jobs := removeJob s.jobs jid, db := deleteById s.db pid },
           Except.ok ()) ∧
        deletePost s pid uid false = (s, Except.error Err.infra)) ∧
    (∀ post : Post,
      s.db.find? (fun p => p.id == pid && p.userId == uid) = some post →
      post.jobId = none →
      ∀ qok : Bool, deletePost s pid uid qok =
        ({ s with db := deleteById s.db pid }, Except.ok ())) ∧
    (∀ jid : String, (∀ j ∈ s.jobs, j.id ≠ jid) →
      removeJob s.jobs jid = s.jobs) := by
  refine ⟨?_, ?_, ?_, ?_⟩
  · intro hf qok
    unfold deletePost
    rw [hf]
  · intro post hf jid hj
    unfold deletePost
    simp only [hf, hj]
    exact ⟨rfl, rfl⟩
  · intro post hf hj qok
    unfold deletePost
    simp only [hf, hj]
  · intro jid hnone
    unfold removeJob
    apply List.filter_eq_self.2
    intro j hjm
    simpa using hnone j hjm

/-- Witness for C8 (amended): deleting an absent post from the empty initial
state errors `NotFound`; deleting post 1 of `sSched` with a healthy queue
removes job and record, while a failing queue aborts with the record kept;
removing the absent job id "nope" from `sSched` is a no-op. -/
theorem c8_witness :
    deletePost initState 1 7 true =
      (initState, Except.error (Err.notFound "Post not found")) ∧
    (deletePost sSched 1 7 true =
      ({ sSched with
         jobs := removeJob sSched.jobs "post-1",
         db := deleteById sSched.db 1 },
       Except.ok ()) ∧
     deletePost sSched 1 7 false = (sSched, Except.error Err.infra)) ∧
    removeJob sSched.jobs "nope" = sSched.jobs := by
  refine ⟨?_, ?_, ?_⟩
  · exact (c8_amended initState 1 7).1 rfl true
  · exact (c8_amended sSched 1 7).2.1 postSched (by decide) "post-1" rfl
  · exact (c8_amended sSched 1 7).2.2.2 "nope" (by decide)

/-- C9 (confirmed): in every reachable state there is at most one pending
job under an entity's deterministic key `post-<id>` (Bull's id-keyed store
never holds two jobs with one id, and the service always cancels before
re-enqueueing); `addJob` derives the job key deterministically from the
entity id; and a removed (cancelled) job can never fire — a worker attempt
for a job id that is not in the queue is a no-op. -/
theorem c9_at_most_one_live_job (ops : List Op) (pid : Nat) :
    ((execOps ops).jobs.filter (fun j =>
        j.id == postKey pid &&
          decide (j.state = JobState.pending))).length ≤ 1 ∧
    (∀ (jobs : List QJob) (jd : JobData) (now delay : Int),
      (addJob jobs jd now delay).2 = postKey jd.postId) ∧
    (∀ (s : SysState) (jid : String) (now : Int) (dbOk : Bool),
      (∀ j ∈ s.jobs, j.id ≠ jid) → workerAttempt s jid now dbOk = s) := by
  refine ⟨?_, ?_, ?_⟩
  · exact pending_key_le_one _ _ (execOps_jobs_nodup ops)
  · intro jobs jd now delay
    exact addJob_key jobs jd now delay
  · intro s jid now dbOk hnone
    unfold workerAttempt
    have hf : s.jobs.find? (fun j =>
        j.id == jid && decide (j.state = JobState.pending)
          && decide (j.dueAt ≤ now)) = none := by
      apply List.find?_eq_none.2
      intro j hj
      intro hc
      simp only [Bool.and_eq_true] at hc
      exact hnone j hj (by simpa using hc.1.1)
    rw [hf]

/-- Witness for C9 at the one-post run: one pending job under `post-1`, the
key of a fresh enqueue for post 1 is `post-1`, and a worker attempt for an
id absent from the queue changes nothing. -/
theorem c9_witness :
    ((execOps [Op.create 0 7 dtoEx true]).jobs.filter (fun j =>
        j.id == postKey 1 &&
          decide (j.state = JobState.pending))).length ≤ 1 ∧
    (addJob [] jobEx.data 0 10000).2 = postKey jobEx.data.postId ∧
    workerAttempt sSched "absent" 10000 true = sSched := by
  refine ⟨?_, ?_, ?_⟩
  · exact (c9_at_most_one_live_job [Op.create 0 7 dtoEx true] 1).1
  · exact (c9_at_most_one_live_job [Op.create 0 7 dtoEx true] 1).2.1
      [] jobEx.data 0 10000
  · exact (c9_at_most_one_live_job [Op.create 0 7 dtoEx true] 1).2.2
      sSched "absent" 10000 true (by decide)

lemma filter_no_jobId (l : List (String × String)) :
    (l.filter (fun kv =>
      kv.1 != "_id" && kv.1 != "__v" && kv.1 != "jobId")).find?
        (fun kv => kv.1 == "jobId") = none := by
  apply List.find?_eq_none.2
  intro kv hkv
  have h2 := (List.mem_filter.1 hkv).2
  intro hc
  have hk : kv.1 = "jobId" := eq_of_beq hc
  rw [hk] at h2
  simp at h2

lemma find?_key_append (l1 l2 : List (String × String)) (k : String)
    (h1 : l1.find? (fun kv => kv.1 == k) = none)
    (h2 : l2.find? (fun kv => kv.1 == k) = none) :
    (l1 ++ l2).find? (fun kv => kv.1 == k) = none := by
  apply List.find?_eq_none.2
  intro kv hkv
  rcases List.mem_append.1 hkv with h | h
  · exact List.find?_eq_none.1 h1 kv h
  · exact List.find?_eq_none.1 h2 kv h

/-- C10 (confirmed): the job reference never reaches API callers — the
model's `toJSON` transform deletes `jobId` from the serialized document (for
every post, including one whose `jobId` is set), and the service-layer
`toPostResponse` mapping produces a `PostResponse`, whose serialization
carries no `jobId` key either. -/
theorem c10_job_reference_hidden (p : Post) :
    (toJSONTransform (postDocAssoc p)).find?
      (fun kv => kv.1 == "jobId") = none ∧
    (responseAssoc (toPostResponse p)).find?
      (fun kv => kv.1 == "jobId") = none := by
  constructor
  · unfold toJSONTransform
    simp only [List.find?_cons]
    have hhead : ((("id",
        (((postDocAssoc p).find? (fun kv => kv.1 == "_id")).map
          Prod.snd).getD "") : String × String).1 == "jobId") = false := by
      simp
    rw [hhead]
    exact filter_no_jobId _
  · unfold responseAssoc
    apply find?_key_append
    · apply find?_key_append
      · rfl
      · generalize (toPostResponse p).scheduledAt = so
        rcases so with _ | t
        · rfl
        · rfl
    · generalize (toPostResponse p).publishedAt = po
      rcases po with _ | t
      · rfl
      · rfl
